import Mathlib

/-!
# face_enhancer.cpp: a shallow embedding

The program reads one image, locates the biggest face, restores either the
padded face crop or the whole frame, composites and writes the result.

Conventions of the embedding.

* C++ `int` is `Int`; the theorems are about runs in which no signed `int`
  operation overflows (overflow is undefined behaviour in the source).
* A finite binary floating point value is a pair `m * 2 ^ e` (`Flt`); an
  operation rounds the exact result to the precision of its type (24 bits
  for `float`, 53 bits for `double`), ties to even.  Exponent range, NaN and
  infinities are not modelled.
* The `double` fields of `Args` and `Tuned` are only copied and compared by
  the code; they are rationals, a decimal literal standing for the `double`
  written in the source.
* Calls into OpenCV and libc whose results the program only consumes (file
  tests, decoding, detector output, encoding, `atof`) are fields of `World`.
-/

namespace FaceEnhancer

/-! ## Geometry (`cv::Point`, `cv::Size`, `cv::Rect`) -/

structure Point where
  x : Int
  y : Int
deriving DecidableEq, Repr

structure Size where
  width : Int
  height : Int
deriving DecidableEq, Repr

structure Rect where
  x : Int
  y : Int
  width : Int
  height : Int
deriving DecidableEq, Repr

/-- The default constructed `Rect()`. -/
def Rect.zero : Rect := ⟨0, 0, 0, 0⟩

/-- `Rect::area()`. -/
def Rect.area (r : Rect) : Int := r.width * r.height

/-- `Rect::empty()`. -/
def Rect.empty (r : Rect) : Bool := decide (r.width ≤ 0) || decide (r.height ≤ 0)

/-- `Rect(Point pt1, Point pt2)`: the rectangle spanned by two corner points. -/
def Rect.ofPoints (p1 p2 : Point) : Rect :=
  let x := min p1.x p2.x
  let y := min p1.y p2.y
  ⟨x, y, max p1.x p2.x - x, max p1.y p2.y - y⟩

/-- `a & b` on `cv::Rect`: the intersection, `Rect()` when it has no area. -/
def Rect.inter (a b : Rect) : Rect :=
  let x1 := max a.x b.x
  let y1 := max a.y b.y
  let w := min (a.x + a.width) (b.x + b.width) - x1
  let h := min (a.y + a.height) (b.y + b.height) - y1
  if w ≤ 0 ∨ h ≤ 0 then Rect.zero else ⟨x1, y1, w, h⟩

/-- `clamp(Rect r, Size s)`, line 44. -/
def clamp (r : Rect) (s : Size) : Rect := Rect.inter r ⟨0, 0, s.width, s.height⟩

/-- The assertion of `Mat::operator()(const Rect&)`: the region of a crop lies
in a matrix of size `s`. -/
def validRoi (roi : Rect) (s : Size) : Prop :=
  0 ≤ roi.x ∧ 0 ≤ roi.width ∧ roi.x + roi.width ≤ s.width ∧
  0 ≤ roi.y ∧ 0 ≤ roi.height ∧ roi.y + roi.height ≤ s.height

instance (roi : Rect) (s : Size) : Decidable (validRoi roi s) := by
  unfold validRoi; infer_instance

/-! ## Binary floating point -/

/-- A finite binary floating point value `m * 2 ^ e`. -/
structure Flt where
  m : Int
  e : Int
deriving DecidableEq, Repr

def bitLenAux : Nat → Nat → Nat
  | 0, _ => 0
  | f + 1, n => if n = 0 then 0 else bitLenAux f (n / 2) + 1

/-- Number of binary digits of `n`. -/
def bitLen (n : Nat) : Nat := bitLenAux n n

/-- Round the natural number `m` to `p` significant bits, to nearest, ties to
even; the result is again a natural number. -/
def roundSig (p : Nat) (m : Nat) : Nat :=
  let n := bitLen m
  if n ≤ p then m else
    let s := n - p
    let q := m / 2 ^ s
    let r := m % 2 ^ s
    let h := 2 ^ (s - 1)
    if h < r ∨ (r = h ∧ q % 2 = 1) then (q + 1) * 2 ^ s else q * 2 ^ s

/-- Rounding of an integer, sign and magnitude. -/
def roundSigInt (p : Nat) (m : Int) : Int :=
  if m < 0 then -((roundSig p m.natAbs : Nat) : Int) else ((roundSig p m.natAbs : Nat) : Int)

/-- Round a value to `p` bits of precision. -/
def Flt.round (p : Nat) (v : Flt) : Flt := ⟨roundSigInt p v.m, v.e⟩

/-- The conversion `int(v)` of a floating value: truncation toward zero. -/
def Flt.toInt (v : Flt) : Int :=
  if 0 ≤ v.e then v.m * 2 ^ v.e.toNat
  else if v.m < 0 then -((v.m.natAbs / 2 ^ (-v.e).toNat : Nat) : Int)
  else ((v.m.natAbs / 2 ^ (-v.e).toNat : Nat) : Int)

/-- `a < b` on floating values. -/
def Flt.lt (a b : Flt) : Bool :=
  let e := min a.e b.e
  decide (a.m * 2 ^ (a.e - e).toNat < b.m * 2 ^ (b.e - e).toNat)

/-- `int(n * c)` for an `int n` and a `double` constant `c`: the product is
rounded to a `double` and truncated. -/
def intMulDouble (n : Int) (c : Flt) : Int := (Flt.round 53 ⟨n * c.m, c.e⟩).toInt

/-- `(float)n` for an `int n`; the value of the result, which is an integer. -/
def floatOfInt (n : Int) : Int := roundSigInt 24 n

/-- `int(f * n)` for a `float f` and an `int n`: `n` is converted to `float`,
the product is rounded to a `float` and truncated. -/
def intMulFloat (f : Flt) (n : Int) : Int :=
  (Flt.round 24 ⟨f.m * floatOfInt n, f.e⟩).toInt

/-- The `double` literal `0.35`. -/
def d0_35 : Flt := ⟨6305039478318694, -54⟩
/-- The `double` literal `0.45`. -/
def d0_45 : Flt := ⟨8106479329266893, -54⟩
/-- The `double` literal `0.48`. -/
def d0_48 : Flt := ⟨8646911284551352, -54⟩
/-- The `double` literal `0.58`. -/
def d0_58 : Flt := ⟨5224175567749775, -53⟩

/-! ## Region extraction (lines 163-164 of `main`) -/

/-- The padded and clamped region of interest around a face box:
`px=int(face.width*0.35)`, `py=int(face.height*0.45)`,
`roi=clamp(Rect(face.x-px,face.y-py,face.width+2*px,face.height+2*py), out.size())`. -/
def faceRoi (face : Rect) (s : Size) : Rect :=
  let px := intMulDouble face.width d0_35
  let py := intMulDouble face.height d0_45
  clamp ⟨face.x - px, face.y - py, face.width + 2 * px, face.height + 2 * py⟩ s

/-! ## Command line (`Args`, `parse`) -/

/-- The record `Args` with its default member initialisers (lines 11-16);
`in_` is the member `in`. -/
structure Args where
  in_ : String
  out : String
  sr : String := "models/EDSR_x4.pb"
  proto : String := "models/opencv_face_detector.prototxt"
  weights : String := "models/opencv_face_detector.caffemodel"
  cascade : String := ""
  scale : Int := 4
  conf : Flt := ⟨1, -1⟩
  faceOnly : Bool := true
  finalPass : Bool := true
  clip : ℚ := -1
  gclip : ℚ := -1
  sharp : ℚ := -1
  gsharp : ℚ := -1
  gamma : ℚ := 1

/-- The C function `isspace` in the "C" locale. -/
def isSpace (c : Char) : Bool := c.toNat == 32 || (decide (9 ≤ c.toNat) && decide (c.toNat ≤ 13))

/-- The value of the leading decimal digits of a character list, continuing
from `acc`. -/
def digitsValue : List Char → Nat → Nat
  | [], acc => acc
  | c :: cs, acc =>
    if 48 ≤ c.toNat ∧ c.toNat ≤ 57 then digitsValue cs (10 * acc + (c.toNat - 48))
    else acc

/-- The C function `strtol(s, NULL, 10)` with a 64-bit `long`: leading white
space, an optional sign, decimal digits; whatever follows is ignored, no
digits give 0 and a value outside the range of `long` gives `LONG_MIN` or
`LONG_MAX`. -/
def strtol (s : String) : Int :=
  match s.toList.dropWhile isSpace with
  | '-' :: cs => max (-(2 ^ 63)) (-((digitsValue cs 0 : Nat) : Int))
  | '+' :: cs => min (2 ^ 63 - 1) ((digitsValue cs 0 : Nat) : Int)
  | cs => min (2 ^ 63 - 1) ((digitsValue cs 0 : Nat) : Int)

/-- The conversion `(int)n` of a `long`: the value modulo `2 ^ 32` in the range
of a 32-bit `int`. -/
def toInt32 (n : Int) : Int := (n + 2 ^ 31) % 2 ^ 32 - 2 ^ 31

/-- The C function `atoi` as glibc defines it, `(int) strtol(s, NULL, 10)`. -/
def atoi (s : String) : Int := toInt32 (strtol s)

/-- The option loop of `parse` (lines 28-41) over `av[3..]`: a flag that takes a
value is recognised only when another entry follows (`i+1<ac`) and consumes
it (`av[++i]`); every other entry is skipped. -/
def parseLoop (atof : String → ℚ) : List String → Args → Args
  | [], a => a
  | [k], a =>
    if k = "--no-face-only" then { a with faceOnly := false }
    else if k = "--no-final" then { a with finalPass := false }
    else a
  | k :: v :: rest, a =>
    if k = "--sr" then parseLoop atof rest { a with sr := v }
    else if k = "--scale" then parseLoop atof rest { a with scale := max 2 (min 8 (atoi v)) }
    else if k = "--proto" then parseLoop atof rest { a with proto := v }
    else if k = "--weights" then parseLoop atof rest { a with weights := v }
    else if k = "--cascade" then parseLoop atof rest { a with cascade := v }
    else if k = "--clip" then parseLoop atof rest { a with clip := max 0 (atof v) }
    else if k = "--gclip" then parseLoop atof rest { a with gclip := max 0 (atof v) }
    else if k = "--sharp" then parseLoop atof rest { a with sharp := max 0 (atof v) }
    else if k = "--gsharp" then parseLoop atof rest { a with gsharp := max 0 (atof v) }
    else if k = "--gamma" then parseLoop atof rest { a with gamma := max (1 / 10) (atof v) }
    else if k = "--no-face-only" then parseLoop atof (v :: rest) { a with faceOnly := false }
    else if k = "--no-final" then parseLoop atof (v :: rest) { a with finalPass := false }
    else parseLoop atof (v :: rest) a

/-- The function `parse` (lines 20-42) on the argument vector `av` (`ac` is its
length); `none` is the call `exit(1)` after the usage message. -/
def parse (atof : String → ℚ) (av : List String) : Option Args :=
  match av with
  | _ :: i :: o :: opts => some (parseLoop atof opts { in_ := i, out := o })
  | _ => none

/-! ## Parameter selection (`Tuned`, `naturalParams`) -/

structure Tuned where
  clip : ℚ
  gclip : ℚ
  sharp : ℚ
  gsharp : ℚ
  gamma : ℚ
  detSigmaS : ℚ
  detSigmaR : ℚ
  bd : Int
  bc : ℚ
  bs : ℚ
deriving DecidableEq

/-- The function `naturalParams` (lines 137-145). -/
def naturalParams (a : Args) : Tuned :=
  let p : Tuned := ⟨1.2, 0.0, 0.35, 0.15, 1.0, 8, 0.08, 7, 55, 55⟩
  let p := if a.clip ≥ 0 then { p with clip := a.clip } else p
  let p := if a.gclip ≥ 0 then { p with gclip := a.gclip } else p
  let p := if a.sharp ≥ 0 then { p with sharp := a.sharp } else p
  let p := if a.gsharp ≥ 0 then { p with gsharp := a.gsharp } else p
  let p := if a.gamma ≠ 1.0 then { p with gamma := a.gamma } else p
  p

/-! ## Face location (`biggestFaceDNN`, `biggestFaceCascade`) -/

/-- One row of the detector output: columns 2 to 6, the confidence and the
two corners of the box in relative coordinates. -/
structure Detection where
  conf : Flt
  x1 : Flt
  y1 : Flt
  x2 : Flt
  y2 : Flt

/-- The pixel box of a detection, clamped to the image (lines 95-97). -/
def detBox (sz : Size) (d : Detection) : Rect :=
  clamp (Rect.ofPoints ⟨intMulFloat d.x1 sz.width, intMulFloat d.y1 sz.height⟩
    ⟨intMulFloat d.x2 sz.width, intMulFloat d.y2 sz.height⟩) sz

/-- One iteration of the loop of `biggestFaceDNN` on the state `(best, bestA)`;
`bestA` is a `float` whose value is always an integer. -/
def dnnStep (sz : Size) (conf : Flt) (st : Rect × Int) (d : Detection) : Rect × Int :=
  if Flt.lt d.conf conf then st
  else
    let r := detBox sz d
    if st.2 < floatOfInt r.area then (r, floatOfInt r.area) else st

/-- The function `biggestFaceDNN` (lines 88-99) on the rows `det` of the network
output for an image of size `sz`. -/
def biggestFaceDNN (sz : Size) (det : List Detection) (conf : Flt) : Rect :=
  (det.foldl (dnnStep sz conf) (Rect.zero, -1)).1

/-- The candidates of `biggestFaceDNN`: the clamped pixel boxes of the
detections whose confidence is not below the threshold, in detector order. -/
def candidates (sz : Size) (det : List Detection) (conf : Flt) : List Rect :=
  (det.filter (fun d => !Flt.lt d.conf conf)).map (detBox sz)

/-- The update of `(best, bestA)` by one candidate (line 97). -/
def bestStep (st : Rect × Int) (r : Rect) : Rect × Int :=
  if st.2 < floatOfInt r.area then (r, floatOfInt r.area) else st

/-- The state `(best, bestA)` after the candidates `seen`: nothing seen yet, or
`best` is the first candidate of largest area and `bestA` is its area. -/
def firstLargest (seen : List Rect) (st : Rect × Int) : Prop :=
  (seen = [] ∧ st = (Rect.zero, -1)) ∨
  (∃ pre post, seen = pre ++ st.1 :: post ∧ (∀ c ∈ pre, c.area < st.1.area) ∧
    (∀ c ∈ post, c.area ≤ st.1.area) ∧ st.2 = st.1.area)

/-- The conversion `(size_t)n` of an `int`. -/
def sizeT (n : Int) : Nat := (n % 2 ^ 64).toNat

/-- One iteration of the loop of `biggestFaceCascade` on `(best, bestA)`. -/
def cascadeStep (st : Rect × Nat) (r : Rect) : Rect × Nat :=
  if st.2 < sizeT r.area then (r, sizeT r.area) else st

/-! ## The environment of a run and its trace -/

/-- What a run receives from outside the program. -/
structure World where
  /-- Value of `ifstream(p).good()`. -/
  fileGood : String → Bool
  /-- Size of the matrix `imread` returns (no pixel when decoding fails). -/
  imread : String → Size
  /-- Whether `readNetFromCaffe` returns without throwing. -/
  netLoads : Bool
  /-- Rows of the output of `net.forward()`. -/
  dnnOut : List Detection
  /-- Value of `cc.load(xml)`. -/
  cascadeLoads : Bool
  /-- The boxes `detectMultiScale` returns. -/
  cascadeOut : List Rect
  /-- Value of `imwrite`. -/
  imwrite : String → Bool
  /-- The C function `atof`. -/
  atof : String → ℚ

/-- The function `exists` (line 18). -/
def fileExists (w : World) (p : String) : Bool := p != "" && w.fileGood p

/-- The function `biggestFaceCascade` (lines 101-107). -/
def biggestFaceCascade (w : World) (xml : String) : Rect :=
  if !fileExists w xml then Rect.zero
  else if !w.cascadeLoads then Rect.zero
  else (w.cascadeOut.foldl cascadeStep (Rect.zero, 0)).1

/-- The face box of `main` (lines 154-158): the neural tier when the detector
files exist and load, then the cascade tier when that box has no width or
height and a cascade path is given. -/
def locateFace (w : World) (a : Args) (img : Size) : Rect :=
  let haveFD := fileExists w a.proto && fileExists w a.weights && w.netLoads
  let face := if haveFD then biggestFaceDNN img w.dnnOut a.conf else Rect.zero
  if (face.width ≤ 0 ∨ face.height ≤ 0) ∧ a.cascade ≠ "" then biggestFaceCascade w a.cascade
  else face

/-- The observable steps of a run, in order.  The numeric parameters of the
filters are left out, apart from the integer ones. -/
inductive Event
  | cerr (s : String)
  | cout (s : String)
  | imread (path : String)
  | crop (roi : Rect)
  | superResolve (src : Size) (model : String) (scale : Int)
  | gammaCorrect
  | bilateral (d : Int)
  | detailEnhance
  | claheY
  | unsharp
  | resize (dst : Size)
  | feather (sz : Size)
  | seamlessClone (center : Point)
  | imwrite (path : String)
deriving DecidableEq, Repr

/-- `Mat::empty()` for a matrix of the given size. -/
def Size.noPixel (s : Size) : Bool := s.width * s.height == 0

/-- The face branch of `main` (lines 163-178). -/
def faceChain (a : Args) (p : Tuned) (img : Size) (face : Rect) : List Event :=
  let roi := faceRoi face img
  let crop : Size := ⟨roi.width, roi.height⟩
  [.crop roi, .superResolve crop a.sr a.scale, .gammaCorrect, .bilateral p.bd, .detailEnhance,
   .claheY, .unsharp, .resize crop, .feather crop,
   .seamlessClone ⟨roi.x + Int.tdiv roi.width 2, roi.y + Int.tdiv roi.height 2⟩]

/-- The whole frame branch of `main` (lines 180-186). -/
def frameChain (a : Args) (p : Tuned) (img : Size) : List Event :=
  [.superResolve img a.sr (min a.scale 4), .gammaCorrect, .bilateral (p.bd - 1), .detailEnhance,
   .claheY, .unsharp, .resize img]

/-- The final pass of `main` (lines 189-191). -/
def finalPass (a : Args) (p : Tuned) : List Event :=
  (if a.finalPass ∧ p.gclip > 0 then [Event.claheY] else []) ++
  (if a.finalPass ∧ p.gsharp > 0 then [Event.unsharp] else [])

/-- The usage message of `parse`. -/
def usage (av : List String) : String :=
  "Usage: " ++ av.headD "" ++ " <in> <out> [--sr pb] [--scale 2|3|4|8] " ++
  "[--proto p] [--weights w] [--cascade xml] " ++
  "[--clip v] [--gclip v] [--sharp v] [--gsharp v] [--gamma v] " ++
  "[--no-face-only] [--no-final]\n"

/-- The function `main` (lines 147-196): the exit code and the trace of a run
in which no processing stage throws. -/
def main (w : World) (av : List String) : Int × List Event :=
  match parse w.atof av with
  | none => (1, [.cerr (usage av)])
  | some a =>
    let p := naturalParams a
    let img := w.imread a.in_
    if img.noPixel then (2, [.imread a.in_, .cerr "Failed to read input.\n"])
    else
      let face := locateFace w a img
      let body :=
        if a.faceOnly ∧ face.area > 0 then faceChain a p img face else frameChain a p img
      let steps := [Event.imread a.in_] ++ body ++ finalPass a p ++ [Event.imwrite a.out]
      if !w.imwrite a.out then (3, steps ++ [.cerr "Failed to write output.\n"])
      else (0, steps ++ [.cout ("Saved: " ++ a.out ++ "\n")])

/-- The value of `a` in a run of `main` with input path `i`, output path `o`
and options `opts`. -/
def runArgs (w : World) (i o : String) (opts : List String) : Args :=
  parseLoop w.atof opts { in_ := i, out := o }

/-- The value of `face` in that run. -/
def runFace (w : World) (i o : String) (opts : List String) : Rect :=
  locateFace w (runArgs w i o opts) (w.imread i)

/-- The parameter selection in the words of the specification: each of clip,
gclip, sharp and gsharp is replaced by its override when that is non-negative,
gamma when its override is in the documented range `gamma >= 0.1`, and an
invalid override leaves the default in place. -/
def selectSpec (a : Args) : Tuned :=
  { clip := if 0 ≤ a.clip then a.clip else 1.2
    gclip := if 0 ≤ a.gclip then a.gclip else 0.0
    sharp := if 0 ≤ a.sharp then a.sharp else 0.35
    gsharp := if 0 ≤ a.gsharp then a.gsharp else 0.15
    gamma := if 1 / 10 ≤ a.gamma then a.gamma else 1.0
    detSigmaS := 8
    detSigmaR := 0.08
    bd := 7
    bc := 55
    bs := 55 }

/-- A run without detector files in which the cascade `c.xml` loads and reports
one box that passes the right and bottom edges of the 100 x 100 image. -/
def cascadeWorld : World :=
  { fileGood := fun q => q == "c.xml"
    imread := fun _ => ⟨100, 100⟩
    netLoads := false
    dnnOut := []
    cascadeLoads := true
    cascadeOut := [⟨90, 90, 30, 30⟩]
    imwrite := fun _ => true
    atof := fun _ => 0 }

/-- Two detections of confidence 0.75 on an 8192 x 8192 image: the boxes
`(0,0)-(4096,4098)` and `(0,0)-(4097,4097)` in relative coordinates. -/
def closeDetections : List Detection :=
  [⟨⟨3, -2⟩, ⟨0, 0⟩, ⟨0, 0⟩, ⟨4096, -13⟩, ⟨4098, -13⟩⟩,
   ⟨⟨3, -2⟩, ⟨0, 0⟩, ⟨0, 0⟩, ⟨4097, -13⟩, ⟨4097, -13⟩⟩]

/-! ## Image normalisation (`to8UC3`) -/

/-- The depth of a matrix: `CV_8U`, `CV_8S`, `CV_16U`, `CV_16S`, `CV_32S`,
`CV_32F` and `CV_64F`, the depths that `minMaxLoc` accepts. -/
inductive Depth
  | u8 | s8 | u16 | s16 | s32 | f32 | f64
deriving DecidableEq, Repr

/-- A matrix: its shape, its type and its samples, row by row with the
channels of a pixel next to each other.  Sample values are rationals. -/
structure Mat where
  rows : Nat
  cols : Nat
  depth : Depth
  channels : Nat
  data : List ℚ
deriving DecidableEq

/-- `Mat::empty()`: the matrix has no element. -/
def Mat.empty (m : Mat) : Bool := m.rows * m.cols == 0

/-- `cvRound`: rounding to the nearest integer, ties to even. -/
def cvRound (q : ℚ) : Int :=
  let f : Int := ⌊q⌋
  if q - f < 1 / 2 then f
  else if 1 / 2 < q - f then f + 1
  else if f % 2 = 0 then f else f + 1

/-- The conversion `saturate_cast<uchar>`: round, then clip to 0..255. -/
def saturateU8 (q : ℚ) : ℚ := ((max 0 (min 255 (cvRound q)) : Int) : ℚ)

/-- `m.convertTo(r, CV_8U, sc)`: every sample is scaled and saturated; the
number of channels is kept. -/
def convertTo8U (m : Mat) (sc : ℚ) : Mat :=
  { m with depth := Depth.u8, data := m.data.map (fun v => saturateU8 (v * sc)) }

/-- The largest sample, as `minMaxLoc` reports it. -/
def maxVal (l : List ℚ) : ℚ := l.foldl max (l.headD 0)

/-- Each grey sample repeated for the three channels. -/
def triple : List ℚ → List ℚ
  | [] => []
  | v :: t => v :: v :: v :: triple t

/-- `cvtColor(g, r, COLOR_GRAY2BGR)`: defined on single channel input only. -/
def cvtGray2BGR (g : Mat) : Option Mat :=
  if g.channels = 1 then some { g with channels := 3, data := triple g.data } else none

/-- The scale factor chosen at lines 52 and 56. -/
def scaleFor (m : Mat) : ℚ :=
  if (m.depth = Depth.f32 ∨ m.depth = Depth.f64) ∧ maxVal m.data ≤ 1 then 255 else 1

/-- The function `to8UC3` (lines 46-60); `none` is the failed assertion of
`cvtColor` on an input of two or of more than three channels. -/
def to8UC3 (m : Mat) : Option Mat :=
  if m.empty then some m
  else if m.depth = Depth.u8 ∧ m.channels = 3 then some m
  else if m.channels = 3 then some (convertTo8U m (scaleFor m))
  else cvtGray2BGR (convertTo8U m (scaleFor m))

/-! ## Feather mask (`feather`) -/

/-- A single channel 8-bit image: its size and the sample at column `x` and
row `y`. -/
structure Gray where
  size : Size
  px : Int → Int → Nat

/-- Whether the pixel `(x, y)` lies in the ellipse of centre `c` and semi-axes
`ax` (both positive). -/
def inEllipse (c : Point) (ax : Size) (x y : Int) : Bool :=
  decide (0 < ax.width) && decide (0 < ax.height) &&
  decide (ax.height ^ 2 * (x - c.x) ^ 2 + ax.width ^ 2 * (y - c.y) ^ 2
    ≤ ax.width ^ 2 * ax.height ^ 2)

/-- `ellipse(m, c, ax, 0, 0, 360, Scalar(255), -1, LINE_AA)`: the filled
ellipse, every pixel in it set to 255 (the grey levels that anti-aliasing
gives the pixels of the outline are not modelled). -/
def ellipse (m : Gray) (c : Point) (ax : Size) : Gray :=
  ⟨m.size, fun x y => if inEllipse c ax x y then 255 else m.px x y⟩

/-- The border rule `BORDER_REFLECT_101` for an index `p` of an axis of length
`len`: `... 2 1 | 0 1 2 ... len-1 | len-2 len-3 ...`. -/
def reflect101 (len p : Int) : Int :=
  if len ≤ 1 then 0
  else
    let q := p % (2 * (len - 1))
    if q < len then q else 2 * (len - 1) - q

/-- Weighted sum of `f o, f (o+1), ...` with the weights of a kernel. -/
def wsum (f : Int → Nat) : List Nat → Int → Nat
  | [], _ => 0
  | c :: cs, o => c * f o + wsum f cs (o + 1)

/-- `GaussianBlur(m, m, Size(), 5.0)` with the one dimensional kernel `k` taken
as a table of non-negative fixed point weights (for sigma 5 on 8-bit data the
kernel has `cvRound(5*3*2+1)|1 = 31` taps): the separable weighted mean over
the window, rounded to nearest, with the default border rule. -/
def GaussianBlur (k : List Nat) (m : Gray) : Gray :=
  ⟨m.size, fun x y =>
    (wsum (fun dy => wsum (fun dx =>
        m.px (reflect101 m.size.width (x + dx)) (reflect101 m.size.height (y + dy)))
      k (-((k.length / 2 : Nat) : Int))) k (-((k.length / 2 : Nat) : Int))
      + k.sum * k.sum / 2) / (k.sum * k.sum)⟩

/-- The function `feather` (lines 123-128). -/
def feather (k : List Nat) (sz : Size) : Gray :=
  GaussianBlur k (ellipse ⟨sz, fun _ _ => 0⟩ ⟨Int.tdiv sz.width 2, Int.tdiv sz.height 2⟩
    ⟨intMulDouble sz.width d0_48, intMulDouble sz.height d0_58⟩)

/-- The ellipse that `feather` draws for a mask of size `sz`. -/
def inFeatherEllipse (sz : Size) (x y : Int) : Bool :=
  inEllipse ⟨Int.tdiv sz.width 2, Int.tdiv sz.height 2⟩
    ⟨intMulDouble sz.width d0_48, intMulDouble sz.height d0_58⟩ x y

/-- The pixel `(x, y)` is on the border of a mask of size `sz`. -/
def onBorder (sz : Size) (x y : Int) : Prop :=
  0 ≤ x ∧ x < sz.width ∧ 0 ≤ y ∧ y < sz.height ∧
  (x = 0 ∨ y = 0 ∨ x = sz.width - 1 ∨ y = sz.height - 1)

instance (sz : Size) (x y : Int) : Decidable (onBorder sz x y) := by
  unfold onBorder; infer_instance

/-- A 31 tap Gaussian kernel of sigma 5 in fixed point with 8 fractional bits;
the weights add up to 256. -/
def gaussKernel31 : List Nat :=
  [0, 0, 1, 1, 2, 3, 4, 6, 8, 10, 12, 15, 17, 19, 20, 20, 20, 19, 17, 15, 12, 10, 8, 6, 4, 3, 2,
   1, 1, 0, 0]

end FaceEnhancer

namespace FaceEnhancer

/-! ## Facts about the floating point model -/

theorem roundSigInt_nonneg (p : Nat) (m : Int) (h : 0 ≤ m) : 0 ≤ roundSigInt p m := by
  unfold roundSigInt
  rw [if_neg (by omega)]
  exact Int.ofNat_nonneg _

theorem Flt.toInt_nonneg (v : Flt) (h : 0 ≤ v.m) : 0 ≤ v.toInt := by
  unfold Flt.toInt
  split
  · positivity
  · rw [if_neg (by omega)]
    exact Int.ofNat_nonneg _

theorem intMulDouble_nonneg (n : Int) (c : Flt) (hn : 0 ≤ n) (hc : 0 ≤ c.m) :
    0 ≤ intMulDouble n c := by
  unfold intMulDouble
  apply Flt.toInt_nonneg
  exact roundSigInt_nonneg _ _ (mul_nonneg hn hc)

/-! ## Region extraction -/

theorem clamp_valid (r : Rect) (s : Size) (hw : 0 ≤ s.width) (hh : 0 ≤ s.height) :
    validRoi (clamp r s) s := by
  unfold clamp Rect.inter validRoi
  dsimp only
  split
  · simp [Rect.zero, hw, hh]
  · dsimp only
    omega

/-- C1: for every image size and every face box, with positive width and
height or not, touching an image corner or not, the region of interest that
`main` crops lies within the image: its origin is non-negative and its right
and bottom edges do not pass the image width and height, which is the
assertion under which the crop `out(roi)` is taken. -/
theorem faceRoi_within_image (face : Rect) (s : Size)
    (hW : 0 ≤ s.width) (hH : 0 ≤ s.height) :
    0 ≤ (faceRoi face s).x ∧ 0 ≤ (faceRoi face s).y ∧
    (faceRoi face s).x + (faceRoi face s).width ≤ s.width ∧
    (faceRoi face s).y + (faceRoi face s).height ≤ s.height ∧
    validRoi (faceRoi face s) s := by
  have h := clamp_valid ⟨face.x - intMulDouble face.width d0_35,
    face.y - intMulDouble face.height d0_45,
    face.width + 2 * intMulDouble face.width d0_35,
    face.height + 2 * intMulDouble face.height d0_45⟩ s hW hH
  have h2 := h
  unfold validRoi at h2
  exact ⟨h2.1, h2.2.2.2.1, h2.2.2.1, h2.2.2.2.2.2, h⟩

theorem faceRoi_within_image_witness :
    0 ≤ (faceRoi ⟨90, 90, 10, 10⟩ ⟨100, 100⟩).x ∧ 0 ≤ (faceRoi ⟨90, 90, 10, 10⟩ ⟨100, 100⟩).y ∧
    (faceRoi ⟨90, 90, 10, 10⟩ ⟨100, 100⟩).x + (faceRoi ⟨90, 90, 10, 10⟩ ⟨100, 100⟩).width ≤ 100 ∧
    (faceRoi ⟨90, 90, 10, 10⟩ ⟨100, 100⟩).y + (faceRoi ⟨90, 90, 10, 10⟩ ⟨100, 100⟩).height ≤ 100 ∧
    validRoi (faceRoi ⟨90, 90, 10, 10⟩ ⟨100, 100⟩) ⟨100, 100⟩ :=
  faceRoi_within_image ⟨90, 90, 10, 10⟩ ⟨100, 100⟩ (by decide) (by decide)

/-- C4: for a face box with positive width and height inside the image, the
region of interest is the box grown by `px = int(0.35*width)` to the left and
right and by `py = int(0.45*height)` above and below, each side cut back to
the image edge where the padding would cross it; it is a valid crop region,
has positive width and height and contains the face box. -/
theorem faceRoi_pads_and_contains (face : Rect) (s : Size)
    (hx : 0 ≤ face.x) (hy : 0 ≤ face.y)
    (hr : face.x + face.width ≤ s.width) (hb : face.y + face.height ≤ s.height)
    (hw : 0 < face.width) (hh : 0 < face.height) :
    (faceRoi face s).x = max 0 (face.x - intMulDouble face.width d0_35) ∧
    (faceRoi face s).y = max 0 (face.y - intMulDouble face.height d0_45) ∧
    (faceRoi face s).x + (faceRoi face s).width
      = min s.width (face.x + face.width + intMulDouble face.width d0_35) ∧
    (faceRoi face s).y + (faceRoi face s).height
      = min s.height (face.y + face.height + intMulDouble face.height d0_45) ∧
    0 ≤ intMulDouble face.width d0_35 ∧ 0 ≤ intMulDouble face.height d0_45 ∧
    validRoi (faceRoi face s) s ∧
    0 < (faceRoi face s).width ∧ 0 < (faceRoi face s).height ∧
    (faceRoi face s).x ≤ face.x ∧ (faceRoi face s).y ≤ face.y ∧
    face.x + face.width ≤ (faceRoi face s).x + (faceRoi face s).width ∧
    face.y + face.height ≤ (faceRoi face s).y + (faceRoi face s).height := by
  have hpx : 0 ≤ intMulDouble face.width d0_35 :=
    intMulDouble_nonneg _ _ (le_of_lt hw) (by decide)
  have hpy : 0 ≤ intMulDouble face.height d0_45 :=
    intMulDouble_nonneg _ _ (le_of_lt hh) (by decide)
  have hv : validRoi (faceRoi face s) s :=
    clamp_valid _ s (by omega) (by omega)
  refine ⟨?_, ?_, ?_, ?_, hpx, hpy, hv, ?_⟩
  all_goals
    unfold faceRoi clamp Rect.inter
    dsimp only
    generalize intMulDouble face.width d0_35 = px at hpx
    generalize intMulDouble face.height d0_45 = py at hpy
    split
    · rename_i hc
      exfalso
      omega
    · dsimp only
      omega

theorem faceRoi_pads_and_contains_witness :
    (faceRoi ⟨80, 0, 20, 20⟩ ⟨100, 100⟩).x = max 0 (80 - intMulDouble 20 d0_35) ∧
    (faceRoi ⟨80, 0, 20, 20⟩ ⟨100, 100⟩).y = max 0 (0 - intMulDouble 20 d0_45) ∧
    (faceRoi ⟨80, 0, 20, 20⟩ ⟨100, 100⟩).x + (faceRoi ⟨80, 0, 20, 20⟩ ⟨100, 100⟩).width
      = min 100 (80 + 20 + intMulDouble 20 d0_35) ∧
    (faceRoi ⟨80, 0, 20, 20⟩ ⟨100, 100⟩).y + (faceRoi ⟨80, 0, 20, 20⟩ ⟨100, 100⟩).height
      = min 100 (0 + 20 + intMulDouble 20 d0_45) ∧
    0 ≤ intMulDouble 20 d0_35 ∧ 0 ≤ intMulDouble 20 d0_45 ∧
    validRoi (faceRoi ⟨80, 0, 20, 20⟩ ⟨100, 100⟩) ⟨100, 100⟩ ∧
    0 < (faceRoi ⟨80, 0, 20, 20⟩ ⟨100, 100⟩).width ∧
    0 < (faceRoi ⟨80, 0, 20, 20⟩ ⟨100, 100⟩).height ∧
    (faceRoi ⟨80, 0, 20, 20⟩ ⟨100, 100⟩).x ≤ 80 ∧ (faceRoi ⟨80, 0, 20, 20⟩ ⟨100, 100⟩).y ≤ 0 ∧
    80 + 20 ≤ (faceRoi ⟨80, 0, 20, 20⟩ ⟨100, 100⟩).x + (faceRoi ⟨80, 0, 20, 20⟩ ⟨100, 100⟩).width ∧
    0 + 20 ≤ (faceRoi ⟨80, 0, 20, 20⟩ ⟨100, 100⟩).y + (faceRoi ⟨80, 0, 20, 20⟩ ⟨100, 100⟩).height :=
  faceRoi_pads_and_contains ⟨80, 0, 20, 20⟩ ⟨100, 100⟩ (by decide) (by decide) (by decide)
    (by decide) (by decide) (by decide)

/-! ## Command line -/

theorem parseLoop_paths (atof : String → ℚ) (l : List String) (a : Args) :
    (parseLoop atof l a).in_ = a.in_ ∧ (parseLoop atof l a).out = a.out := by
  induction l, a using parseLoop.induct atof
  all_goals rw [parseLoop]
  all_goals simp only [*, ↓reduceIte, and_self]

theorem parseLoop_gamma (atof : String → ℚ) (l : List String) (a : Args)
    (h : 1 / 10 ≤ a.gamma) : 1 / 10 ≤ (parseLoop atof l a).gamma := by
  induction l, a using parseLoop.induct atof
  all_goals rw [parseLoop]
  all_goals simp only [*, ↓reduceIte, and_self]
  all_goals first
    | exact h
    | (rename_i ih; exact ih (le_max_left _ _))

theorem parse_some (atof : String → ℚ) (av : List String) (a : Args)
    (h : parse atof av = some a) :
    ∃ prog i o opts, av = prog :: i :: o :: opts ∧
      a = parseLoop atof opts { in_ := i, out := o } := by
  match av, h with
  | prog :: i :: o :: opts, h =>
    simp only [parse, Option.some.injEq] at h
    exact ⟨prog, i, o, opts, rfl, h.symm⟩

theorem parse_none_iff (atof : String → ℚ) (av : List String) :
    parse atof av = none ↔ av.length < 3 := by
  match av with
  | [] => simp [parse]
  | [_] => simp [parse]
  | [_, _] => simp [parse]
  | _ :: _ :: _ :: _ => simp [parse]

theorem main_short (w : World) (av : List String) (h : av.length < 3) :
    main w av = (1, [.cerr (usage av)]) := by
  have hp := (parse_none_iff w.atof av).2 h
  simp only [main, hp]

theorem main_long (w : World) (prog i o : String) (opts : List String) :
    main w (prog :: i :: o :: opts) =
      (let a := parseLoop w.atof opts { in_ := i, out := o }
       let p := naturalParams a
       let img := w.imread i
       if img.noPixel then (2, [.imread i, .cerr "Failed to read input.\n"])
       else
         let face := locateFace w a img
         let body :=
           if a.faceOnly ∧ face.area > 0 then faceChain a p img face else frameChain a p img
         let steps := [Event.imread i] ++ body ++ finalPass a p ++ [Event.imwrite o]
         if !w.imwrite o then (3, steps ++ [.cerr "Failed to write output.\n"])
         else (0, steps ++ [.cout ("Saved: " ++ o ++ "\n")])) := by
  have h1 := (parseLoop_paths w.atof opts { in_ := i, out := o }).1
  have h2 := (parseLoop_paths w.atof opts { in_ := i, out := o }).2
  simp only [main, parse, h1, h2]

theorem not_mem_frameChain (a : Args) (p : Tuned) (img : Size) :
    (∀ q, Event.imwrite q ∉ frameChain a p img) ∧
    (∀ c, Event.seamlessClone c ∉ frameChain a p img) ∧
    (∀ r, Event.crop r ∉ frameChain a p img) ∧
    (∀ s, Event.feather s ∉ frameChain a p img) := by
  simp [frameChain]

/-- C5: the exit code of `main` as a function of the argument count, of the
decoded image and of the result of the write.  With fewer than three entries
in `av` (fewer than two positional arguments) the code is 1 and no image is
read.  With the two paths present: the code is never 1; it is 2 exactly when
the input decodes to an image without pixels, and then no write is attempted;
when the image has pixels the code is 3 exactly when the write fails, and
otherwise it is 0 and the line `Saved: <output-path>` is printed. -/
theorem main_exit_code (w : World) :
    (∀ av, (main w av).1 = 1 ↔ av.length < 3) ∧
    (∀ av, av.length < 3 → ∀ q, Event.imread q ∉ (main w av).2) ∧
    (∀ prog i o opts,
      ((main w (prog :: i :: o :: opts)).1 = 2 ↔ (w.imread i).noPixel = true) ∧
      ((w.imread i).noPixel = true →
        ∀ q, Event.imwrite q ∉ (main w (prog :: i :: o :: opts)).2) ∧
      ((w.imread i).noPixel = false →
        ((main w (prog :: i :: o :: opts)).1 = 3 ↔ w.imwrite o = false) ∧
        (w.imwrite o = true →
          (main w (prog :: i :: o :: opts)).1 = 0 ∧
          Event.cout ("Saved: " ++ o ++ "\n") ∈ (main w (prog :: i :: o :: opts)).2))) := by
  have hlong : ∀ prog i o opts,
      ((main w (prog :: i :: o :: opts)).1 ≠ 1) ∧
      ((main w (prog :: i :: o :: opts)).1 = 2 ↔ (w.imread i).noPixel = true) ∧
      ((w.imread i).noPixel = true →
        ∀ q, Event.imwrite q ∉ (main w (prog :: i :: o :: opts)).2) ∧
      ((w.imread i).noPixel = false →
        ((main w (prog :: i :: o :: opts)).1 = 3 ↔ w.imwrite o = false) ∧
        (w.imwrite o = true →
          (main w (prog :: i :: o :: opts)).1 = 0 ∧
          Event.cout ("Saved: " ++ o ++ "\n") ∈ (main w (prog :: i :: o :: opts)).2)) := by
    intro prog i o opts
    rw [main_long]
    dsimp only
    cases himg : (w.imread i).noPixel <;> cases hwr : w.imwrite o <;> simp
  refine ⟨?_, ?_, ?_⟩
  · intro av
    constructor
    · intro h
      by_contra hlen
      match av, hlen with
      | prog :: i :: o :: opts, _ => exact (hlong prog i o opts).1 h
      | [], hlen => simp at hlen
      | [_], hlen => simp at hlen
      | [_, _], hlen => simp at hlen
    · intro h
      rw [main_short w av h]
  · intro av h q
    rw [main_short w av h]
    simp
  · intro prog i o opts
    exact (hlong prog i o opts).2

theorem naturalParams_bd (a : Args) : (naturalParams a).bd = 7 := by
  unfold naturalParams
  dsimp only
  split_ifs <;> rfl

/-- C9: in a run that decodes an image `img` with pixels, with `a` the parsed
arguments, `face` the located face box and `roi` its padded region, the face
branch is taken exactly when face-only mode is on and `face` has positive
area: the trace is then the crop of `roi`, the restoration of the crop
(super-resolution by the scale, gamma, bilateral filter of diameter 7, detail
enhancement, CLAHE, unsharp mask), the resize to the crop size, the feather
mask and `seamlessClone` at the centre of `roi`.  In every other case the
whole frame branch is taken: the trace is the restoration of the full image
(super-resolution of `img` by `min(scale,4)`, gamma, bilateral filter of
diameter 6, detail enhancement, CLAHE, unsharp mask) followed by the resize to
the size of `img`, with no crop, no feather mask and no `seamlessClone`.  Both
are followed by the final pass and the write.  A face box of zero area is not
an error: the run ends with exit code 0, or 3 when the write fails. -/
theorem main_branch (w : World) (prog i o : String) (opts : List String)
    (a : Args) (img : Size) (face roi : Rect) (tail : List Event)
    (ha : a = runArgs w i o opts) (hi : img = w.imread i)
    (hf : face = runFace w i o opts) (hr : roi = faceRoi face img)
    (ht : tail =
      (if a.finalPass = true ∧ 0 < (naturalParams a).gclip then [Event.claheY] else []) ++
      (if a.finalPass = true ∧ 0 < (naturalParams a).gsharp then [Event.unsharp] else []) ++
      [Event.imwrite o,
       if w.imwrite o = true then Event.cout ("Saved: " ++ o ++ "\n")
       else Event.cerr "Failed to write output.\n"])
    (himg : img.noPixel = false) :
    ((a.faceOnly = true ∧ 0 < face.area) →
      (main w (prog :: i :: o :: opts)).2 =
        [Event.imread i, Event.crop roi,
         Event.superResolve ⟨roi.width, roi.height⟩ a.sr a.scale, Event.gammaCorrect,
         Event.bilateral 7, Event.detailEnhance, Event.claheY, Event.unsharp,
         Event.resize ⟨roi.width, roi.height⟩, Event.feather ⟨roi.width, roi.height⟩,
         Event.seamlessClone ⟨roi.x + Int.tdiv roi.width 2, roi.y + Int.tdiv roi.height 2⟩]
        ++ tail) ∧
    (¬(a.faceOnly = true ∧ 0 < face.area) →
      (main w (prog :: i :: o :: opts)).2 =
        [Event.imread i, Event.superResolve img a.sr (min a.scale 4), Event.gammaCorrect,
         Event.bilateral 6, Event.detailEnhance, Event.claheY, Event.unsharp, Event.resize img]
        ++ tail) ∧
    ((∃ c, Event.seamlessClone c ∈ (main w (prog :: i :: o :: opts)).2) ↔
      (a.faceOnly = true ∧ 0 < face.area)) ∧
    ((∃ r, Event.crop r ∈ (main w (prog :: i :: o :: opts)).2) ↔
      (a.faceOnly = true ∧ 0 < face.area)) ∧
    ((∃ s, Event.feather s ∈ (main w (prog :: i :: o :: opts)).2) ↔
      (a.faceOnly = true ∧ 0 < face.area)) ∧
    (face.area = 0 → (main w (prog :: i :: o :: opts)).1 = if w.imwrite o = true then 0 else 3) := by
  have hbd := naturalParams_bd a
  have htr : (main w (prog :: i :: o :: opts)).2 =
      [Event.imread i] ++
      (if a.faceOnly = true ∧ 0 < face.area then
        [Event.crop roi,
         Event.superResolve ⟨roi.width, roi.height⟩ a.sr a.scale, Event.gammaCorrect,
         Event.bilateral 7, Event.detailEnhance, Event.claheY, Event.unsharp,
         Event.resize ⟨roi.width, roi.height⟩, Event.feather ⟨roi.width, roi.height⟩,
         Event.seamlessClone ⟨roi.x + Int.tdiv roi.width 2, roi.y + Int.tdiv roi.height 2⟩]
       else
        [Event.superResolve img a.sr (min a.scale 4), Event.gammaCorrect,
         Event.bilateral 6, Event.detailEnhance, Event.claheY, Event.unsharp, Event.resize img])
      ++ tail := by
    rw [main_long]
    subst ha hi hf hr ht
    unfold runFace runArgs at *
    dsimp only
    rw [himg]
    by_cases hc : (parseLoop w.atof opts { in_ := i, out := o }).faceOnly = true ∧
        0 < (locateFace w (parseLoop w.atof opts { in_ := i, out := o }) (w.imread i)).area
    · cases hwr : w.imwrite o <;> simp [hc, faceChain, finalPass, hbd]
    · cases hwr : w.imwrite o <;> simp [hc, frameChain, finalPass, hbd]
  have hcode : (main w (prog :: i :: o :: opts)).1 = if w.imwrite o = true then 0 else 3 := by
    rw [main_long]
    subst hi
    dsimp only
    rw [himg]
    cases hwr : w.imwrite o <;> simp
  have htail : (∀ c, Event.seamlessClone c ∉ tail) ∧ (∀ r, Event.crop r ∉ tail) ∧
      (∀ s, Event.feather s ∉ tail) := by
    subst ht
    refine ⟨?_, ?_, ?_⟩ <;> intro x <;> split_ifs <;> simp
  rw [htr]
  by_cases hc : a.faceOnly = true ∧ 0 < face.area
  · simp [hc]
    intro _
    exact hcode
  · simp [hc, htail.1, htail.2.1, htail.2.2]
    intro _
    exact hcode

theorem main_branch_witness :
    (cascadeWorld.imread "in.jpg").noPixel = false ∧
    (runArgs cascadeWorld "in.jpg" "out.jpg" ["--cascade", "c.xml"]).faceOnly = true ∧
    0 < (runFace cascadeWorld "in.jpg" "out.jpg" ["--cascade", "c.xml"]).area ∧
    faceRoi (runFace cascadeWorld "in.jpg" "out.jpg" ["--cascade", "c.xml"]) ⟨100, 100⟩
      = ⟨80, 77, 20, 23⟩ ∧
    (∃ c, Event.seamlessClone c ∈
      (main cascadeWorld ["prog", "in.jpg", "out.jpg", "--cascade", "c.xml"]).2) :=
  ⟨by decide, by decide, by decide, by decide,
   (main_branch cascadeWorld "prog" "in.jpg" "out.jpg" ["--cascade", "c.xml"]
      _ _ _ _ _ rfl rfl rfl rfl rfl (by decide)).2.2.1.2 ⟨by decide, by decide⟩⟩

/-! ## Parameter selection -/

/-- C6, as stated, fails: an override record whose gamma is 0, outside the
documented range `gamma >= 0.1`, does not leave the default 1.0 in place;
`naturalParams` returns gamma 0. -/
theorem naturalParams_gamma_unchecked :
    (naturalParams { in_ := "in.jpg", out := "out.jpg", gamma := 0 }).gamma = 0 ∧
    (selectSpec { in_ := "in.jpg", out := "out.jpg", gamma := 0 }).gamma = 1 ∧
    naturalParams { in_ := "in.jpg", out := "out.jpg", gamma := 0 } ≠
      selectSpec { in_ := "in.jpg", out := "out.jpg", gamma := 0 } := by
  have h1 : (naturalParams { in_ := "in.jpg", out := "out.jpg", gamma := 0 }).gamma = 0 := by
    norm_num [naturalParams]
  have h2 : (selectSpec { in_ := "in.jpg", out := "out.jpg", gamma := 0 }).gamma = 1 := by
    norm_num [selectSpec]
  refine ⟨h1, h2, ?_⟩
  intro h
  rw [h, h2] at h1
  norm_num at h1

/-- C6, amended: for every override record `naturalParams` returns the default
set in which each of clip, gclip, sharp and gsharp is replaced by its
override exactly when that override is non-negative, gamma is the gamma of
the record (it is replaced whenever it differs from 1.0, without a range
check), and the detail and bilateral fields are the defaults.  The result is
the selection of the specification whenever the gamma of the record is at
least 0.1, which holds for every record that `parse` returns. -/
theorem naturalParams_eq (a : Args) :
    naturalParams a =
      { clip := if 0 ≤ a.clip then a.clip else 1.2
        gclip := if 0 ≤ a.gclip then a.gclip else 0.0
        sharp := if 0 ≤ a.sharp then a.sharp else 0.35
        gsharp := if 0 ≤ a.gsharp then a.gsharp else 0.15
        gamma := a.gamma
        detSigmaS := 8
        detSigmaR := 0.08
        bd := 7
        bc := 55
        bs := 55 } ∧
    (1 / 10 ≤ a.gamma → naturalParams a = selectSpec a) ∧
    (∀ atof av b, parse atof av = some b → 1 / 10 ≤ b.gamma ∧ naturalParams b = selectSpec b) := by
  have hform : ∀ b : Args, naturalParams b =
      { clip := if 0 ≤ b.clip then b.clip else 1.2
        gclip := if 0 ≤ b.gclip then b.gclip else 0.0
        sharp := if 0 ≤ b.sharp then b.sharp else 0.35
        gsharp := if 0 ≤ b.gsharp then b.gsharp else 0.15
        gamma := b.gamma
        detSigmaS := 8
        detSigmaR := 0.08
        bd := 7
        bc := 55
        bs := 55 } := by
    intro b
    unfold naturalParams
    by_cases h1 : 0 ≤ b.clip <;> by_cases h2 : 0 ≤ b.gclip <;> by_cases h3 : 0 ≤ b.sharp <;>
      by_cases h4 : 0 ≤ b.gsharp <;> by_cases h5 : b.gamma = 1 <;>
      norm_num [h1, h2, h3, h4, h5]
  have hspec : ∀ b : Args, 1 / 10 ≤ b.gamma → naturalParams b = selectSpec b := by
    intro b hb
    rw [hform b]
    unfold selectSpec
    rw [if_pos hb]
  refine ⟨hform a, hspec a, ?_⟩
  intro atof av b hb
  obtain ⟨prog, i, o, opts, -, rfl⟩ := parse_some atof av b hb
  have hg := parseLoop_gamma atof opts { in_ := i, out := o } (by norm_num)
  exact ⟨hg, hspec _ hg⟩

/-! ## Face location -/

theorem bitLenAux_le (b : Nat) : ∀ (f n : Nat), n < 2 ^ b → bitLenAux f n ≤ b := by
  induction b with
  | zero =>
    intro f n h
    have hn : n = 0 := by simpa using h
    subst hn
    cases f <;> simp [bitLenAux]
  | succ b ih =>
    intro f n h
    cases f with
    | zero => simp [bitLenAux]
    | succ f =>
      simp only [bitLenAux]
      split_ifs
      · omega
      · have h2 : n / 2 < 2 ^ b := by
          rw [Nat.div_lt_iff_lt_mul (by norm_num)]
          rw [pow_succ] at h
          exact h
        have := ih f (n / 2) h2
        omega

theorem floatOfInt_exact (n : Int) (h0 : 0 ≤ n) (h : n < 2 ^ 24) : floatOfInt n = n := by
  unfold floatOfInt roundSigInt
  rw [if_neg (by omega)]
  have hn : n.natAbs < 2 ^ 24 := by omega
  have hb : bitLen n.natAbs ≤ 24 := bitLenAux_le 24 _ _ hn
  unfold roundSig
  simp only [hb, if_true]
  omega

theorem inter_zero_or_pos (a b : Rect) :
    Rect.inter a b = Rect.zero ∨ (0 < (Rect.inter a b).width ∧ 0 < (Rect.inter a b).height) := by
  unfold Rect.inter
  dsimp only
  split
  · exact Or.inl rfl
  · right
    dsimp only
    omega

theorem detBox_area (sz : Size) (d : Detection) (hW : 0 ≤ sz.width) (hH : 0 ≤ sz.height) :
    0 ≤ (detBox sz d).area ∧ (detBox sz d).area ≤ sz.width * sz.height := by
  have hv : validRoi (detBox sz d) sz := clamp_valid _ sz hW hH
  unfold validRoi at hv
  unfold Rect.area
  constructor
  · exact mul_nonneg hv.2.1 hv.2.2.2.2.1
  · apply mul_le_mul <;> omega

theorem foldl_dnnStep (sz : Size) (conf : Flt) :
    ∀ (det : List Detection) (st : Rect × Int),
      det.foldl (dnnStep sz conf) st = (candidates sz det conf).foldl bestStep st
  | [], st => rfl
  | d :: ds, st => by
    have ih := foldl_dnnStep sz conf ds
    unfold candidates at ih ⊢
    by_cases hc : Flt.lt d.conf conf = true
    · simp only [List.foldl_cons, dnnStep, hc, if_true, List.filter_cons, Bool.not_true,
        Bool.false_eq_true, if_false]
      exact ih st
    · simp only [List.foldl_cons, dnnStep, hc, if_false, List.filter_cons, Bool.not_eq_true,
        Bool.not_false, if_true, List.map_cons]
      exact ih _

theorem firstLargest_step (seen : List Rect) (st : Rect × Int) (r : Rect)
    (h : firstLargest seen st) (h0 : 0 ≤ r.area) (hr : floatOfInt r.area = r.area) :
    firstLargest (seen ++ [r]) (bestStep st r) := by
  unfold bestStep
  rw [hr]
  rcases h with ⟨hs, hst⟩ | ⟨pre, post, hs, hpre, hpost, hA⟩
  · subst hs hst
    right
    refine ⟨[], [], ?_⟩
    rw [if_pos (by show (-1 : Int) < r.area; omega)]
    simp
  · right
    by_cases hlt : st.2 < r.area
    · rw [if_pos hlt]
      refine ⟨seen, [], by simp, ?_, by simp, rfl⟩
      intro c hc
      show c.area < r.area
      rw [hs] at hc
      rcases List.mem_append.1 hc with h1 | h1
      · have := hpre c h1
        omega
      · rcases List.mem_cons.1 h1 with h2 | h2
        · rw [h2]
          omega
        · have := hpost c h2
          omega
    · rw [if_neg hlt]
      refine ⟨pre, post ++ [r], by simp [hs], hpre, ?_, hA⟩
      intro c hc
      rcases List.mem_append.1 hc with h1 | h1
      · exact hpost c h1
      · have : c = r := by simpa using h1
        rw [this]
        omega

theorem firstLargest_foldl :
    ∀ (l seen : List Rect) (st : Rect × Int), firstLargest seen st →
      (∀ c ∈ l, 0 ≤ c.area ∧ floatOfInt c.area = c.area) →
      firstLargest (seen ++ l) (l.foldl bestStep st)
  | [], seen, st, h, _ => by simpa using h
  | r :: rs, seen, st, h, hl => by
    have h1 := firstLargest_step seen st r h (hl r (by simp)).1 (hl r (by simp)).2
    have h2 := firstLargest_foldl rs (seen ++ [r]) (bestStep st r) h1
      (fun c hc => hl c (by simp [hc]))
    simpa using h2

/-- On an image of fewer than `2 ^ 24` pixels, where every area is a `float`,
`biggestFaceDNN` returns the zero box when no detection passes the threshold
and otherwise the first of the clamped candidate boxes of largest area. -/
theorem biggestFaceDNN_first_largest (sz : Size) (det : List Detection) (conf : Flt)
    (hW : 0 ≤ sz.width) (hH : 0 ≤ sz.height) (hsmall : sz.width * sz.height < 2 ^ 24) :
    (candidates sz det conf = [] → biggestFaceDNN sz det conf = Rect.zero) ∧
    (candidates sz det conf ≠ [] →
      ∃ pre post, candidates sz det conf = pre ++ biggestFaceDNN sz det conf :: post ∧
        (∀ c ∈ pre, c.area < (biggestFaceDNN sz det conf).area) ∧
        (∀ c ∈ post, c.area ≤ (biggestFaceDNN sz det conf).area)) := by
  have hex : ∀ c ∈ candidates sz det conf, 0 ≤ c.area ∧ floatOfInt c.area = c.area := by
    intro c hc
    unfold candidates at hc
    obtain ⟨d, -, rfl⟩ := List.mem_map.1 hc
    have ha := detBox_area sz d hW hH
    exact ⟨ha.1, floatOfInt_exact _ ha.1 (by omega)⟩
  have hinv := firstLargest_foldl (candidates sz det conf) [] (Rect.zero, -1)
    (Or.inl ⟨rfl, rfl⟩) hex
  rw [← foldl_dnnStep, List.nil_append] at hinv
  unfold biggestFaceDNN
  constructor
  · intro hnil
    rw [foldl_dnnStep, hnil]
    rfl
  · intro hne
    rcases hinv with ⟨hs, -⟩ | ⟨pre, post, hs, hpre, hpost, -⟩
    · exact absurd hs hne
    · exact ⟨pre, post, hs, hpre, hpost⟩

theorem biggestFaceDNN_first_largest_witness :
    candidates ⟨100, 100⟩ [⟨⟨3, -2⟩, ⟨1, -2⟩, ⟨1, -2⟩, ⟨3, -2⟩, ⟨3, -2⟩⟩] ⟨1, -1⟩
      = [⟨25, 25, 50, 50⟩] ∧
    ∃ pre post,
      candidates ⟨100, 100⟩ [⟨⟨3, -2⟩, ⟨1, -2⟩, ⟨1, -2⟩, ⟨3, -2⟩, ⟨3, -2⟩⟩] ⟨1, -1⟩ =
        pre ++ biggestFaceDNN ⟨100, 100⟩ [⟨⟨3, -2⟩, ⟨1, -2⟩, ⟨1, -2⟩, ⟨3, -2⟩, ⟨3, -2⟩⟩] ⟨1, -1⟩
          :: post ∧
      (∀ c ∈ pre, c.area <
        (biggestFaceDNN ⟨100, 100⟩ [⟨⟨3, -2⟩, ⟨1, -2⟩, ⟨1, -2⟩, ⟨3, -2⟩, ⟨3, -2⟩⟩] ⟨1, -1⟩).area) ∧
      (∀ c ∈ post, c.area ≤
        (biggestFaceDNN ⟨100, 100⟩ [⟨⟨3, -2⟩, ⟨1, -2⟩, ⟨1, -2⟩, ⟨3, -2⟩, ⟨3, -2⟩⟩] ⟨1, -1⟩).area) :=
  ⟨by decide,
   (biggestFaceDNN_first_largest ⟨100, 100⟩ [⟨⟨3, -2⟩, ⟨1, -2⟩, ⟨1, -2⟩, ⟨3, -2⟩, ⟨3, -2⟩⟩]
      ⟨1, -1⟩ (by decide) (by decide) (by decide)).2 (by decide)⟩

/-- The box of the neural tier is `Rect()` or lies inside the image with
positive width and height. -/
theorem biggestFaceDNN_within (sz : Size) (det : List Detection) (conf : Flt)
    (hW : 0 ≤ sz.width) (hH : 0 ≤ sz.height) :
    validRoi (biggestFaceDNN sz det conf) sz ∧
    (biggestFaceDNN sz det conf = Rect.zero ∨
      (0 < (biggestFaceDNN sz det conf).width ∧ 0 < (biggestFaceDNN sz det conf).height)) := by
  have key : ∀ (l : List Rect) (st : Rect × Int),
      (∀ c ∈ l, validRoi c sz ∧ (c = Rect.zero ∨ (0 < c.width ∧ 0 < c.height))) →
      (validRoi st.1 sz ∧ (st.1 = Rect.zero ∨ (0 < st.1.width ∧ 0 < st.1.height))) →
      (validRoi (l.foldl bestStep st).1 sz ∧ ((l.foldl bestStep st).1 = Rect.zero ∨
        (0 < (l.foldl bestStep st).1.width ∧ 0 < (l.foldl bestStep st).1.height))) := by
    intro l
    induction l with
    | nil => intro st _ h; exact h
    | cons r rs ih =>
      intro st hl hst
      simp only [List.foldl_cons]
      apply ih
      · intro c hc
        exact hl c (by simp [hc])
      · unfold bestStep
        split_ifs
        · exact hl r (by simp)
        · exact hst
  unfold biggestFaceDNN
  rw [foldl_dnnStep]
  apply key
  · intro c hc
    unfold candidates at hc
    obtain ⟨d, -, rfl⟩ := List.mem_map.1 hc
    exact ⟨clamp_valid _ sz hW hH, inter_zero_or_pos _ _⟩
  · refine ⟨?_, Or.inl rfl⟩
    simp [validRoi, Rect.zero, hW, hH]

/-- C2 at the failing input: without detector files and with the cascade
`c.xml` reporting the box `(90, 90, 30, 30)` on a 100 x 100 image, the face
box of `main` is that box; it has positive area and passes the right and
bottom image edges. -/
theorem locateFace_cascade_unclamped :
    runFace cascadeWorld "in.jpg" "out.jpg" ["--cascade", "c.xml"] = ⟨90, 90, 30, 30⟩ ∧
    cascadeWorld.imread "in.jpg" = ⟨100, 100⟩ ∧
    0 < (runFace cascadeWorld "in.jpg" "out.jpg" ["--cascade", "c.xml"]).area ∧
    ¬ validRoi (runFace cascadeWorld "in.jpg" "out.jpg" ["--cascade", "c.xml"])
      (cascadeWorld.imread "in.jpg") := by
  refine ⟨by decide, by decide, by decide, by decide⟩

/-- C3 at the failing input: on an 8192 x 8192 image both detections pass the
threshold 0.5; the first has the clamped box `(0, 0, 4096, 4098)` of area
16785408 and the second the clamped box `(0, 0, 4097, 4097)` of area 16785409.
`biggestFaceDNN` returns the first box, because both areas are the same
`float`. -/
theorem biggestFaceDNN_float_area :
    detBox ⟨8192, 8192⟩ (closeDetections.get ⟨0, by decide⟩) = ⟨0, 0, 4096, 4098⟩ ∧
    detBox ⟨8192, 8192⟩ (closeDetections.get ⟨1, by decide⟩) = ⟨0, 0, 4097, 4097⟩ ∧
    closeDetections.filter (fun d => !Flt.lt d.conf ⟨1, -1⟩) = closeDetections ∧
    floatOfInt 16785409 = 16785408 ∧
    (⟨0, 0, 4096, 4098⟩ : Rect).area < (⟨0, 0, 4097, 4097⟩ : Rect).area ∧
    biggestFaceDNN ⟨8192, 8192⟩ closeDetections ⟨1, -1⟩ = ⟨0, 0, 4096, 4098⟩ := by
  refine ⟨by decide, by decide, ?_, by decide, by decide, by decide⟩
  simp [closeDetections, Flt.lt]

/-! ## Image normalisation -/

/-- C8: on every matrix of one or three channels, whatever its depth and its
samples, `to8UC3` raises no error and applying it to its own result returns
that result; a matrix that is already 8-bit with three channels is returned
unchanged. -/
theorem to8UC3_idempotent (m : Mat) (h : m.channels = 1 ∨ m.channels = 3) :
    (∃ r, to8UC3 m = some r ∧ to8UC3 r = some r) ∧
    ((to8UC3 m).bind to8UC3 = to8UC3 m) ∧
    (m.depth = Depth.u8 ∧ m.channels = 3 → to8UC3 m = some m) := by
  have key : ∃ r, to8UC3 m = some r ∧ to8UC3 r = some r := by
    by_cases he : m.empty = true
    · exact ⟨m, by simp [to8UC3, he], by simp [to8UC3, he]⟩
    · by_cases ht : m.depth = Depth.u8 ∧ m.channels = 3
      · exact ⟨m, by simp [to8UC3, he, ht], by simp [to8UC3, he, ht]⟩
      · have he2 : (convertTo8U m (scaleFor m)).empty = m.empty := rfl
        by_cases h3 : m.channels = 3
        · have hd0 : m.depth ≠ Depth.u8 := fun hd => ht ⟨hd, h3⟩
          refine ⟨convertTo8U m (scaleFor m), by simp [to8UC3, he, h3, hd0], ?_⟩
          have hd : (convertTo8U m (scaleFor m)).depth = Depth.u8 := rfl
          have hc : (convertTo8U m (scaleFor m)).channels = 3 := h3
          simp [to8UC3, hd, hc]
        · have h1 : m.channels = 1 := by
            rcases h with h | h
            · exact h
            · exact absurd h h3
          have hc : (convertTo8U m (scaleFor m)).channels = 1 := h1
          refine ⟨{ convertTo8U m (scaleFor m) with
            channels := 3, data := triple (convertTo8U m (scaleFor m)).data }, ?_, ?_⟩
          · simp [to8UC3, he, ht, h3, cvtGray2BGR, hc]
          · have hd : (convertTo8U m (scaleFor m)).depth = Depth.u8 := rfl
            simp [to8UC3, hd]
  refine ⟨key, ?_, ?_⟩
  · obtain ⟨r, h1, h2⟩ := key
    rw [h1]
    exact h2
  · intro ht
    unfold to8UC3
    split_ifs <;> rfl

theorem to8UC3_idempotent_witness :
    (∃ r, to8UC3 ⟨1, 2, Depth.f32, 1, [1 / 2, 1]⟩ = some r ∧ to8UC3 r = some r) ∧
    ((to8UC3 ⟨1, 2, Depth.f32, 1, [1 / 2, 1]⟩).bind to8UC3
      = to8UC3 ⟨1, 2, Depth.f32, 1, [1 / 2, 1]⟩) ∧
    ((⟨1, 2, Depth.f32, 1, [1 / 2, 1]⟩ : Mat).depth = Depth.u8 ∧
      (⟨1, 2, Depth.f32, 1, [1 / 2, 1]⟩ : Mat).channels = 3 →
      to8UC3 ⟨1, 2, Depth.f32, 1, [1 / 2, 1]⟩ = some ⟨1, 2, Depth.f32, 1, [1 / 2, 1]⟩) :=
  to8UC3_idempotent ⟨1, 2, Depth.f32, 1, [1 / 2, 1]⟩ (Or.inl rfl)

/-! ## Feather mask -/

theorem wsum_const (f : Int → Nat) (v : Nat) :
    ∀ (k : List Nat) (o : Int), (∀ d, o ≤ d → d < o + k.length → f d = v) →
      wsum f k o = k.sum * v
  | [], _, _ => by simp [wsum]
  | c :: cs, o, h => by
    have h0 : f o = v := h o le_rfl (by simp)
    have ih := wsum_const f v cs (o + 1) (fun d h1 h2 => h d (by omega) (by simp; omega))
    simp only [wsum, h0, ih, List.sum_cons]
    ring

theorem mean_const (n v : Nat) (hn : 0 < n) : (n * v + n / 2) / n = v := by
  have h2 : n / 2 < n := Nat.div_lt_self hn (by norm_num)
  rw [Nat.mul_comm, Nat.add_comm, Nat.add_mul_div_right _ _ hn, Nat.div_eq_of_lt h2,
    Nat.zero_add]

theorem GaussianBlur_const (k : List Nat) (m : Gray) (x y : Int) (v : Nat) (hk : 0 < k.sum)
    (h : ∀ dx dy : Int, -((k.length / 2 : Nat) : Int) ≤ dx →
      dx < -((k.length / 2 : Nat) : Int) + k.length →
      -((k.length / 2 : Nat) : Int) ≤ dy → dy < -((k.length / 2 : Nat) : Int) + k.length →
      m.px (reflect101 m.size.width (x + dx)) (reflect101 m.size.height (y + dy)) = v) :
    (GaussianBlur k m).px x y = v := by
  unfold GaussianBlur
  dsimp only
  have hin : ∀ dy : Int, -((k.length / 2 : Nat) : Int) ≤ dy →
      dy < -((k.length / 2 : Nat) : Int) + k.length →
      wsum (fun dx => m.px (reflect101 m.size.width (x + dx))
        (reflect101 m.size.height (y + dy))) k (-((k.length / 2 : Nat) : Int)) = k.sum * v := by
    intro dy h1 h2
    exact wsum_const _ v k _ (fun dx h3 h4 => h dx dy h3 h4 h1 h2)
  rw [wsum_const _ (k.sum * v) k _ hin, ← Nat.mul_assoc]
  exact mean_const (k.sum * k.sum) v (Nat.mul_pos hk hk)

theorem feather_window (k : List Nat) (sz : Size) (x y : Int) (b : Bool) (hk : 0 < k.sum)
    (h : ∀ dx dy : Int, -((k.length / 2 : Nat) : Int) ≤ dx →
      dx < -((k.length / 2 : Nat) : Int) + k.length →
      -((k.length / 2 : Nat) : Int) ≤ dy → dy < -((k.length / 2 : Nat) : Int) + k.length →
      inFeatherEllipse sz (reflect101 sz.width (x + dx)) (reflect101 sz.height (y + dy)) = b) :
    (feather k sz).px x y = if b then 255 else 0 := by
  unfold feather
  apply GaussianBlur_const k _ x y _ hk
  intro dx dy h1 h2 h3 h4
  have := h dx dy h1 h2 h3 h4
  unfold inFeatherEllipse at this
  simp only [ellipse, this]

theorem feather_top_centre (k : List Nat) (hlen : k.length = 31) (hk : 0 < k.sum) :
    (feather k ⟨200, 200⟩).px 100 0 = 255 := by
  have hw := feather_window k ⟨200, 200⟩ 100 0 true hk
  simp only [if_true] at hw
  apply hw
  intro dx dy h1 h2 h3 h4
  rw [hlen] at h1 h2 h3 h4
  have ha : intMulDouble 200 d0_48 = 96 := by decide
  have hb : intMulDouble 200 d0_58 = 115 := by decide
  have hc : Int.tdiv 200 2 = 100 := by decide
  have hx : reflect101 200 (100 + dx) = 100 + dx := by
    unfold reflect101
    simp only
    omega
  have hy : 0 ≤ reflect101 200 (0 + dy) ∧ reflect101 200 (0 + dy) ≤ 15 := by
    unfold reflect101
    simp only
    omega
  simp only [inFeatherEllipse, inEllipse, ha, hb, hc, hx]
  generalize reflect101 200 (0 + dy) = ry at hy
  have hl : -15 ≤ dx := by omega
  have hu : dx ≤ 15 := by omega
  have hdx : (100 + dx - 100) ^ 2 ≤ 225 := by nlinarith
  have hdy : (ry - 100) ^ 2 ≤ 10000 := by nlinarith
  simp
  nlinarith

/-- C10, as stated, fails: the pixel `(100, 0)` in the top row of a 200 x 200
mask is a border pixel and its blend weight is 255, not 0. -/
theorem feather_border_full_weight :
    onBorder ⟨200, 200⟩ 100 0 ∧ (feather gaussKernel31 ⟨200, 200⟩).px 100 0 = 255 :=
  ⟨by decide, feather_top_centre gaussKernel31 (by decide) (by decide)⟩

/-- C10, amended: for every mask size and every 31 tap kernel of positive
total weight, the feather mask (the filled ellipse centred at
`(width/2, height/2)` with semi-axes `int(0.48*width)` and `int(0.58*height)`,
blurred) has weight 0 at every pixel whose blur window lies outside the
ellipse and weight 255 at every pixel whose blur window lies inside it.  The
weight is not 0 on the whole border: the ellipse is taller than the mask, and
the border pixel `(100, 0)` of a 200 x 200 mask has weight 255. -/
theorem feather_weight (k : List Nat) (hlen : k.length = 31) (hk : 0 < k.sum) :
    (∀ sz x y,
      (∀ dx dy : Int, -15 ≤ dx → dx ≤ 15 → -15 ≤ dy → dy ≤ 15 →
        inFeatherEllipse sz (reflect101 sz.width (x + dx)) (reflect101 sz.height (y + dy))
          = false) →
      (feather k sz).px x y = 0) ∧
    (∀ sz x y,
      (∀ dx dy : Int, -15 ≤ dx → dx ≤ 15 → -15 ≤ dy → dy ≤ 15 →
        inFeatherEllipse sz (reflect101 sz.width (x + dx)) (reflect101 sz.height (y + dy))
          = true) →
      (feather k sz).px x y = 255) ∧
    (onBorder ⟨200, 200⟩ 100 0 ∧ (feather k ⟨200, 200⟩).px 100 0 = 255) := by
  refine ⟨?_, ?_, by decide, feather_top_centre k hlen hk⟩
  · intro sz x y h
    have hw := feather_window k sz x y false hk
    rw [hlen] at hw
    exact hw (fun dx dy h1 h2 h3 h4 => h dx dy (by omega) (by omega) (by omega) (by omega))
  · intro sz x y h
    have hw := feather_window k sz x y true hk
    rw [hlen] at hw
    exact hw (fun dx dy h1 h2 h3 h4 => h dx dy (by omega) (by omega) (by omega) (by omega))

theorem feather_weight_witness :
    gaussKernel31.length = 31 ∧ 0 < gaussKernel31.sum ∧
    (onBorder ⟨200, 200⟩ 100 0 ∧ (feather gaussKernel31 ⟨200, 200⟩).px 100 0 = 255) :=
  ⟨by decide, by decide, (feather_weight gaussKernel31 (by decide) (by decide)).2.2⟩

/-! ## Values of the floating point model -/

/-- The products of the source at some sizes: `int(180*0.35)` is 62 and
`int(100*0.58)` is 57, because the `double` product falls just below the
integer; `(float)16785409` is 16785408. -/
theorem float_model_samples :
    intMulDouble 180 d0_35 = 62 ∧ intMulDouble 20 d0_35 = 7 ∧ intMulDouble 100 d0_58 = 57 ∧
    intMulDouble (-3) d0_35 = -1 ∧ intMulDouble (-2) d0_35 = 0 ∧
    floatOfInt 16785409 = 16785408 ∧ intMulFloat ⟨4097, -13⟩ 8192 = 4097 ∧
    faceRoi ⟨0, 0, 20, 20⟩ ⟨100, 100⟩ = ⟨0, 0, 27, 29⟩ := by
  decide

/-- The four constants are the `double` literals of the source: each mantissa
has 53 bits and the value is within half a unit in the last place of the
decimal fraction written in `face_enhancer.cpp`. -/
theorem double_literals_nearest :
    (2 ^ 52 ≤ d0_35.m ∧ d0_35.m < 2 ^ 53 ∧ |100 * d0_35.m - 35 * 2 ^ 54| ≤ 50) ∧
    (2 ^ 52 ≤ d0_45.m ∧ d0_45.m < 2 ^ 53 ∧ |100 * d0_45.m - 45 * 2 ^ 54| ≤ 50) ∧
    (2 ^ 52 ≤ d0_48.m ∧ d0_48.m < 2 ^ 53 ∧ |100 * d0_48.m - 48 * 2 ^ 54| ≤ 50) ∧
    (2 ^ 52 ≤ d0_58.m ∧ d0_58.m < 2 ^ 53 ∧ |100 * d0_58.m - 58 * 2 ^ 53| ≤ 50) := by
  simp only [d0_35, d0_45, d0_48, d0_58]
  norm_num [abs_le]

end FaceEnhancer
